import Mathlib

/-!
Verification of the multi-provider geocoding resolution layer of the
aero-mapping repository.

The definitions below are a shallow embedding of:
* `GeocoderManager.geocode` from `src/geocode/providers.py` (the cache +
  ordered-fallback manager), together with its sqlite cache helpers
  (`INSERT OR REPLACE` keyed by address text) modelled as an association
  list, and
* the synchronous provider adapter retry loop shared by
  `src/geocode/nominatim_geocoder.py`, `mapbox_geocoder.py`,
  `google_geocoder.py`, `here_geocoder.py`, `locationiq_geocoder.py` and
  `opencage_geocoder.py` (a `while True` loop over HTTP attempts with
  bounded retry for transport errors and rate-limit statuses).

Addresses are lists of characters; Python's `str.strip()` is embedded as
`pyStrip`.  Coordinates are rationals standing for the float values the
code passes through unchanged (none of the verified code performs any
arithmetic on them, only construction, comparison and storage).  Each run
of the manager is instrumented with the list of provider invocations,
cache reads, cache writes and verbose trace events, so that claims about
"provider invoked exactly once", "no cache write", or "tracing does not
alter control flow" are statements about these observable lists.
-/

namespace AeroMapping

/-- Addresses are opaque text, modelled as lists of characters. -/
abbrev Addr := List Char

/-- The whitespace characters removed by Python's `str.strip()` (ASCII
whitespace; the addresses in this code base are ASCII). -/
def pyIsSpace (c : Char) : Bool :=
  c = ' ' || c = '\t' || c = '\n' || c = '\r' || c = '\x0b' || c = '\x0c'

/-- Embedding of Python's `address.strip()`: remove leading and trailing
whitespace (`key = address.strip()` in `GeocoderManager.geocode`). -/
def pyStrip (a : Addr) : Addr :=
  ((a.dropWhile pyIsSpace).reverse.dropWhile pyIsSpace).reverse

/-- A cached geocoding value: `(lat, lon, provider)` as selected by
`SELECT lat, lon, provider FROM geocode_cache WHERE address = ?`. -/
abbrev CacheVal := ℚ × ℚ × String

/-- The sqlite cache table `geocode_cache(address PRIMARY KEY, lat, lon,
provider, ts)`, modelled as an association list keyed by address text.
The timestamp column is not read back by any verified code path and is
omitted. -/
abbrev Cache := List (Addr × CacheVal)

/-- `_cache_get_sync`: look the address key up in the cache table. -/
def cacheGet : Cache → Addr → Option CacheVal
  | [], _ => none
  | (k', v) :: rest, k => if k' = k then some v else cacheGet rest k

/-- `_cache_set_sync`: `INSERT OR REPLACE` of one row keyed by the
address, preserving all other rows. -/
def cacheSet : Cache → Addr → CacheVal → Cache
  | [], k, v => [(k, v)]
  | (k', v') :: rest, k, v =>
      if k' = k then (k, v) :: rest else (k', v') :: cacheSet rest k v

/-- One provider in the manager's chain: its class name (the provenance
string `p.__class__.__name__`) and the outcome of one `geocode` call on a
given address -- either coordinates or a raised exception, carrying its
message.  The manager catches every exception uniformly
(`except Exception as e`), so a single error type suffices. -/
structure Provider where
  name : String
  behavior : Addr → Except String (ℚ × ℚ)

/-- The single manager-level failure raised by `GeocoderManager.geocode`:
`raise GeocodeError(f"All providers failed: {last_exc}")`, carrying
`last_exc`, which is `None` exactly when no provider was attempted. -/
inductive ManagerError where
  | allFailed (lastExc : Option String)
deriving DecidableEq

/-- The message string of the raised `GeocodeError`; Python formats
`last_exc = None` as the text `None`. -/
def errMessage : ManagerError → String
  | .allFailed none => "All providers failed: None"
  | .allFailed (some e) => "All providers failed: " ++ e

/-- The verbose-mode print statements of `GeocoderManager.geocode`, as
abstract trace events. -/
inductive TraceEvent where
  | cacheHit (provider : String)
  | trying (provider : String)
  | succeeded (provider : String) (lat lon : ℚ)
  | failed (provider : String) (err : String)
deriving DecidableEq

/-- The observable outcome of one `GeocoderManager.geocode` call: the
returned triple or raised error, the cache state afterwards, and the
instrumentation lists (providers invoked in order, cache keys read, cache
rows written, verbose trace events). -/
structure RunResult where
  result : Except ManagerError (ℚ × ℚ × String)
  cache : Cache
  invocations : List String
  reads : List Addr
  writes : List (Addr × CacheVal)
  traces : List TraceEvent

/-- The provider loop of `GeocoderManager.geocode`: try each provider in
order on the original address; on success optionally write through to the
cache under `key` and return `(lat, lon, class name)`; on any exception
record it as `last_exc` and advance; when the chain is exhausted raise
`GeocodeError` carrying `last_exc`. -/
def tryProviders (address : Addr) (key : Addr) (useCache : Bool)
    (verbose : Bool) (cache : Cache) (lastExc : Option String) :
    List Provider → RunResult
  | [] =>
      { result := .error (.allFailed lastExc), cache := cache,
        invocations := [], reads := [], writes := [], traces := [] }
  | p :: rest =>
      match p.behavior address with
      | .ok (lat, lon) =>
          { result := .ok (lat, lon, p.name),
            cache := if useCache then cacheSet cache key (lat, lon, p.name) else cache,
            invocations := [p.name], reads := [],
            writes := if useCache then [(key, (lat, lon, p.name))] else [],
            traces := if verbose then [.trying p.name, .succeeded p.name lat lon] else [] }
      | .error e =>
          let r := tryProviders address key useCache verbose cache (some e) rest
          { r with
            invocations := p.name :: r.invocations,
            traces := (if verbose then [.trying p.name, .failed p.name e] else []) ++ r.traces }

/-- Embedding of `GeocoderManager.geocode(address, verbose)` for a manager
constructed as `GeocoderManager(providers, use_cache)`: compute the key
`address.strip()`, on `use_cache` consult the cache and on a hit return
the stored triple without touching any provider, otherwise run the
fallback chain. -/
def geocode (providers : List Provider) (useCache : Bool) (cache : Cache)
    (address : Addr) (verbose : Bool) : RunResult :=
  let key := pyStrip address
  if useCache then
    match cacheGet cache key with
    | some (lat, lon, prov) =>
        { result := .ok (lat, lon, prov), cache := cache,
          invocations := [], reads := [key], writes := [],
          traces := if verbose then [.cacheHit prov] else [] }
    | none =>
        let r := tryProviders address key useCache verbose cache none providers
        { r with reads := key :: r.reads }
  else
    tryProviders address key false verbose cache none providers

/-- C1: a chain whose first provider fails and whose second succeeds
returns the second provider's coordinates with its provenance, invoking
exactly the first and second providers, in that order, and no later
one. -/
theorem geocode_fallback_second_succeeds
    (p1 p2 : Provider) (rest : List Provider) (useCache : Bool)
    (cache : Cache) (address : Addr) (verbose : Bool)
    (e : String) (lat lon : ℚ)
    (h1 : p1.behavior address = .error e)
    (h2 : p2.behavior address = .ok (lat, lon))
    (hmiss : useCache = false ∨ cacheGet cache (pyStrip address) = none) :
    (geocode (p1 :: p2 :: rest) useCache cache address verbose).result
        = .ok (lat, lon, p2.name) ∧
    (geocode (p1 :: p2 :: rest) useCache cache address verbose).invocations
        = [p1.name, p2.name] := by
  rcases hmiss with hmiss | hmiss
  · subst hmiss
    simp [geocode, tryProviders, h1, h2]
  · rcases h : useCache with _ | _
    · simp [geocode, tryProviders, h1, h2]
    · simp [geocode, hmiss, tryProviders, h1, h2]

/-- A provider that always fails, as in the spec's concrete scenario. -/
def failProvider : Provider :=
  { name := "Fail", behavior := fun _ => .error "simulated provider failure" }

/-- A provider that always succeeds with the spec scenario's Bristol
coordinates (51.4545, -2.5879). -/
def successProvider : Provider :=
  { name := "Success",
    behavior := fun _ => .ok (514545/10000, -(25879/10000)) }

/-- Witness for C1, the spec's concrete scenario: chain `[Fail, Success]`,
cache disabled, address `"X"` resolves to `(51.4545, -2.5879, "Success")`
with `Fail` and `Success` each invoked exactly once. -/
theorem geocode_fallback_second_succeeds_witness :
    (geocode [failProvider, successProvider] false [] ['X'] false).result
        = .ok (514545/10000, -(25879/10000), "Success") ∧
    (geocode [failProvider, successProvider] false [] ['X'] false).invocations
        = ["Fail", "Success"] :=
  geocode_fallback_second_succeeds failProvider successProvider [] false []
    ['X'] false "simulated provider failure" (514545/10000) (-(25879/10000))
    rfl rfl (Or.inl rfl)

/-- A replaced row is found again under its key. -/
theorem cacheGet_cacheSet_self (c : Cache) (k : Addr) (v : CacheVal) :
    cacheGet (cacheSet c k v) k = some v := by
  induction c with
  | nil => simp [cacheSet, cacheGet]
  | cons kv rest ih =>
      obtain ⟨k', v'⟩ := kv
      by_cases h : k' = k
      · simp [cacheSet, h, cacheGet]
      · simp [cacheSet, h, cacheGet, ih]

/-- When the provider loop fails, the cache is untouched and nothing is
written; the loop also performs no cache reads. -/
theorem tryProviders_error_cache (address key : Addr) (useCache verbose : Bool)
    (cache : Cache) :
    ∀ (provs : List Provider) (lastExc : Option String) (m : ManagerError),
      (tryProviders address key useCache verbose cache lastExc provs).result = .error m →
      (tryProviders address key useCache verbose cache lastExc provs).cache = cache ∧
      (tryProviders address key useCache verbose cache lastExc provs).writes = [] := by
  intro provs
  induction provs with
  | nil => intro lastExc m _; simp [tryProviders]
  | cons p rest ih =>
      intro lastExc m h
      cases hb : p.behavior address with
      | ok v =>
          obtain ⟨lat, lon⟩ := v
          simp [tryProviders, hb] at h
      | error e =>
          simp only [tryProviders, hb] at h ⊢
          exact ih (some e) m h

/-- When the provider loop succeeds with caching on, the produced cache
resolves the key to exactly the returned triple (the write-through). -/
theorem tryProviders_ok_cacheGet (address key : Addr) (verbose : Bool)
    (cache : Cache) :
    ∀ (provs : List Provider) (lastExc : Option String) (lat lon : ℚ) (prov : String),
      (tryProviders address key true verbose cache lastExc provs).result = .ok (lat, lon, prov) →
      cacheGet (tryProviders address key true verbose cache lastExc provs).cache key
        = some (lat, lon, prov) := by
  intro provs
  induction provs with
  | nil => intro lastExc lat lon prov h; simp [tryProviders] at h
  | cons p rest ih =>
      intro lastExc lat lon prov h
      cases hb : p.behavior address with
      | ok v =>
          obtain ⟨lat', lon'⟩ := v
          simp only [tryProviders, hb, Except.ok.injEq, Prod.mk.injEq] at h
          obtain ⟨e1, e2, e3⟩ := h
          subst e1; subst e2; subst e3
          simp [tryProviders, hb, cacheGet_cacheSet_self]
      | error e =>
          simp only [tryProviders, hb] at h ⊢
          exact ih (some e) lat lon prov h

/-- When every provider in the chain fails, the loop raises the aggregate
error carrying the last provider's error, invokes each chain member
exactly once in order, and leaves the cache untouched. -/
theorem tryProviders_all_fail (address key : Addr) (useCache verbose : Bool)
    (cache : Cache) :
    ∀ (provs : List Provider) (lastExc : Option String) (plast : Provider) (elast : String),
      provs.getLast? = some plast →
      (∀ p ∈ provs, ∃ e, p.behavior address = .error e) →
      plast.behavior address = .error elast →
      (tryProviders address key useCache verbose cache lastExc provs).result
          = .error (.allFailed (some elast)) ∧
      (tryProviders address key useCache verbose cache lastExc provs).invocations
          = provs.map Provider.name ∧
      (tryProviders address key useCache verbose cache lastExc provs).cache = cache ∧
      (tryProviders address key useCache verbose cache lastExc provs).writes = [] := by
  intro provs
  induction provs with
  | nil => intro lastExc plast elast hlast _ _; simp at hlast
  | cons p rest ih =>
      intro lastExc plast elast hlast hfail helast
      obtain ⟨e, he⟩ := hfail p (List.mem_cons_self p rest)
      cases rest with
      | nil =>
          simp only [List.getLast?_singleton, Option.some.injEq] at hlast
          subst hlast
          rw [he] at helast
          have : e = elast := by injection helast
          subst this
          simp [tryProviders, he]
      | cons q rest' =>
          rw [List.getLast?_cons_cons] at hlast
          have hfail' : ∀ r ∈ q :: rest', ∃ e', r.behavior address = .error e' := by
            intro r hr
            exact hfail r (List.mem_cons_of_mem p hr)
          have := ih (some e) plast elast hlast hfail' helast
          simp only [tryProviders, he] at this ⊢
          exact ⟨this.1, by rw [List.map_cons, this.2.1], this.2.2.1, this.2.2.2⟩

/-- C3: for a non-empty chain in which every provider's resolve fails, the
manager raises the single aggregate error carrying the last error
observed, invokes each provider exactly once in chain order, returns no
degraded result, and leaves the cache unchanged. -/
theorem geocode_all_providers_fail
    (provs : List Provider) (useCache : Bool) (cache : Cache) (address : Addr)
    (verbose : Bool) (plast : Provider) (elast : String)
    (hlast : provs.getLast? = some plast)
    (hfail : ∀ p ∈ provs, ∃ e, p.behavior address = .error e)
    (helast : plast.behavior address = .error elast)
    (hmiss : useCache = false ∨ cacheGet cache (pyStrip address) = none) :
    (geocode provs useCache cache address verbose).result
        = .error (.allFailed (some elast)) ∧
    (geocode provs useCache cache address verbose).invocations
        = provs.map Provider.name ∧
    (geocode provs useCache cache address verbose).cache = cache ∧
    (geocode provs useCache cache address verbose).writes = [] := by
  have hmain := tryProviders_all_fail address (pyStrip address) useCache verbose
    cache provs none plast elast hlast hfail helast
  rcases hmiss with hmiss | hmiss
  · subst hmiss
    simpa [geocode] using hmain
  · cases useCache with
    | false => simpa [geocode] using hmain
    | true => simpa [geocode, hmiss] using hmain

/-- Witness for C3: chain `[Fail]` on address `"X"` with an empty cache
raises the aggregate error carrying the simulated failure, with exactly
one invocation and no cache write. -/
theorem geocode_all_providers_fail_witness :
    (geocode [failProvider] true [] ['X'] false).result
        = .error (.allFailed (some "simulated provider failure")) ∧
    (geocode [failProvider] true [] ['X'] false).invocations = ["Fail"] ∧
    (geocode [failProvider] true [] ['X'] false).cache = [] ∧
    (geocode [failProvider] true [] ['X'] false).writes = [] :=
  geocode_all_providers_fail [failProvider] true [] ['X'] false failProvider
    "simulated provider failure" rfl
    (by intro p hp; simp at hp; subst hp; exact ⟨"simulated provider failure", rfl⟩)
    rfl (Or.inr rfl)

/-- A provider whose raised error formats as the text `None`, matching how
Python formats an absent `last_exc`. -/
def noneMsgProvider : Provider :=
  { name := "P", behavior := fun _ => .error "None" }

/-- C4 counterexample: the code raises no distinct `EmptyProviderChain`
error.  On an empty chain `GeocoderManager.geocode` raises the very same
aggregate `GeocodeError` constructor used for "all providers tried and
failed", carrying `last_exc = None`; its message
`"All providers failed: None"` coincides exactly with the message raised
by a non-empty chain whose last failure formats as `None`, so the two
outcomes are not distinguishable as the claim requires. -/
theorem geocode_empty_chain_not_distinct :
    (geocode [] true [] ['X'] false).result = .error (.allFailed none) ∧
    (geocode [noneMsgProvider] true [] ['X'] false).result
        = .error (.allFailed (some "None")) ∧
    errMessage (.allFailed none) = errMessage (.allFailed (some "None")) :=
  ⟨rfl, rfl, rfl⟩

/-- C4 amended: on a zero-length provider chain (after a cache miss, or
with caching off) the manager raises immediately the same aggregate
error used for the all-failed case, carrying no last error (message
`"All providers failed: None"`), with no provider invoked and hence no
network call attempted, and with the cache untouched. -/
theorem geocode_empty_chain_immediate
    (useCache : Bool) (cache : Cache) (address : Addr) (verbose : Bool)
    (hmiss : useCache = false ∨ cacheGet cache (pyStrip address) = none) :
    (geocode [] useCache cache address verbose).result = .error (.allFailed none) ∧
    (geocode [] useCache cache address verbose).invocations = [] ∧
    (geocode [] useCache cache address verbose).cache = cache ∧
    (geocode [] useCache cache address verbose).writes = [] ∧
    errMessage (.allFailed none) = "All providers failed: None" := by
  rcases hmiss with hmiss | hmiss
  · subst hmiss; simp [geocode, tryProviders, errMessage]
  · cases useCache with
    | false => simp [geocode, tryProviders, errMessage]
    | true => simp [geocode, hmiss, tryProviders, errMessage]

/-- Witness for the amended C4: empty chain, empty cache, address `"X"`. -/
theorem geocode_empty_chain_immediate_witness :
    (geocode [] true [] ['X'] false).result = .error (.allFailed none) ∧
    (geocode [] true [] ['X'] false).invocations = [] ∧
    (geocode [] true [] ['X'] false).cache = [] ∧
    (geocode [] true [] ['X'] false).writes = [] ∧
    errMessage (.allFailed none) = "All providers failed: None" :=
  geocode_empty_chain_immediate true [] ['X'] false (Or.inr rfl)

/-- C10: a failing resolution changes nothing.  If `geocode` raises, the
cache afterwards equals the cache before, no write was performed (cache
writes happen only in the provider-success branch), and a later identical
call on the resulting state replays the whole run (providers re-attempted,
same outcome). -/
theorem geocode_failure_cache_unchanged
    (provs : List Provider) (useCache : Bool) (cache : Cache) (address : Addr)
    (verbose : Bool) (m : ManagerError)
    (h : (geocode provs useCache cache address verbose).result = .error m) :
    (geocode provs useCache cache address verbose).cache = cache ∧
    (geocode provs useCache cache address verbose).writes = [] ∧
    geocode provs useCache ((geocode provs useCache cache address verbose).cache)
        address verbose
      = geocode provs useCache cache address verbose := by
  have hcw :
      (geocode provs useCache cache address verbose).cache = cache ∧
      (geocode provs useCache cache address verbose).writes = [] := by
    cases hc : useCache with
    | false =>
        rw [hc] at h
        have := tryProviders_error_cache address (pyStrip address) false verbose
          cache provs none m
        simp only [geocode] at h ⊢
        exact this h
    | true =>
        rw [hc] at h
        cases hg : cacheGet cache (pyStrip address) with
        | some v =>
            obtain ⟨lat, lon, prov⟩ := v
            simp [geocode, hg] at h
        | none =>
            have := tryProviders_error_cache address (pyStrip address) true verbose
              cache provs none m
            simp only [geocode, hg] at h ⊢
            exact this h
  refine ⟨hcw.1, hcw.2, ?_⟩
  rw [hcw.1]

/-- Witness for C10: the all-failing chain `[Fail]` leaves the empty cache
empty and replays identically. -/
theorem geocode_failure_cache_unchanged_witness :
    (geocode [failProvider] true [] ['X'] false).cache = [] ∧
    (geocode [failProvider] true [] ['X'] false).writes = [] ∧
    geocode [failProvider] true ((geocode [failProvider] true [] ['X'] false).cache)
        ['X'] false
      = geocode [failProvider] true [] ['X'] false :=
  geocode_failure_cache_unchanged [failProvider] true [] ['X'] false
    (.allFailed (some "simulated provider failure")) rfl

/-- The provider loop's outcome, final cache, invocation order, reads and
writes are the same with and without verbose tracing; only the emitted
trace events differ. -/
theorem tryProviders_verbose_invariant (address key : Addr) (useCache : Bool)
    (cache : Cache) :
    ∀ (provs : List Provider) (lastExc : Option String),
      (tryProviders address key useCache true cache lastExc provs).result
        = (tryProviders address key useCache false cache lastExc provs).result ∧
      (tryProviders address key useCache true cache lastExc provs).cache
        = (tryProviders address key useCache false cache lastExc provs).cache ∧
      (tryProviders address key useCache true cache lastExc provs).invocations
        = (tryProviders address key useCache false cache lastExc provs).invocations ∧
      (tryProviders address key useCache true cache lastExc provs).reads
        = (tryProviders address key useCache false cache lastExc provs).reads ∧
      (tryProviders address key useCache true cache lastExc provs).writes
        = (tryProviders address key useCache false cache lastExc provs).writes := by
  intro provs
  induction provs with
  | nil => intro lastExc; simp [tryProviders]
  | cons p rest ih =>
      intro lastExc
      cases hb : p.behavior address with
      | ok v =>
          obtain ⟨lat, lon⟩ := v
          simp [tryProviders, hb]
      | error e =>
          have := ih (some e)
          simp only [tryProviders, hb]
          exact ⟨this.1, this.2.1, by rw [this.2.2.1], this.2.2.2.1, this.2.2.2.2⟩

/-- C9: verbose tracing is a pure side channel.  For every chain, cache
state and address, running the manager with `verbose = True` and with
`verbose = False` yields the same returned triple or raised error, the
same final cache, the same provider invocation sequence and the same
cache reads and writes; only the trace events differ. -/
theorem geocode_verbose_invariant
    (provs : List Provider) (useCache : Bool) (cache : Cache) (address : Addr) :
    (geocode provs useCache cache address true).result
      = (geocode provs useCache cache address false).result ∧
    (geocode provs useCache cache address true).cache
      = (geocode provs useCache cache address false).cache ∧
    (geocode provs useCache cache address true).invocations
      = (geocode provs useCache cache address false).invocations ∧
    (geocode provs useCache cache address true).reads
      = (geocode provs useCache cache address false).reads ∧
    (geocode provs useCache cache address true).writes
      = (geocode provs useCache cache address false).writes := by
  cases hc : useCache with
  | false =>
      have := tryProviders_verbose_invariant address (pyStrip address) false cache provs none
      simpa [geocode] using this
  | true =>
      cases hg : cacheGet cache (pyStrip address) with
      | some v =>
          obtain ⟨lat, lon, prov⟩ := v
          simp [geocode, hg]
      | none =>
          have := tryProviders_verbose_invariant address (pyStrip address) true cache provs none
          simp [geocode, hg, this.1, this.2.1, this.2.2.1, this.2.2.2.1, this.2.2.2.2]

/-- The provider loop invokes a prefix of the chain, each member at most
once: its invocation list is the names of the first `n` chain members for
some `n`. -/
theorem tryProviders_invocations_take (address key : Addr) (useCache verbose : Bool)
    (cache : Cache) :
    ∀ (provs : List Provider) (lastExc : Option String), ∃ n,
      (tryProviders address key useCache verbose cache lastExc provs).invocations
        = (provs.take n).map Provider.name := by
  intro provs
  induction provs with
  | nil => intro lastExc; exact ⟨0, by simp [tryProviders]⟩
  | cons p rest ih =>
      intro lastExc
      cases hb : p.behavior address with
      | ok v =>
          obtain ⟨lat, lon⟩ := v
          exact ⟨1, by simp [tryProviders, hb]⟩
      | error e =>
          obtain ⟨n, hn⟩ := ih (some e)
          exact ⟨n + 1, by simp only [tryProviders, hb, List.take_succ_cons,
            List.map_cons, hn]⟩

/-- C2: the cache short-circuits providers, and resolution is idempotent.
First conjunct: with caching enabled, a prior cache entry for the trimmed
address is returned as-is with no provider invoked.  Second conjunct: any
single `geocode` call invokes each chain member at most once (its
invocation list is a prefix of the chain).  Third conjunct: if a first
call with caching enabled returns a triple, a second call on the resulting
state returns exactly the same triple and invokes no provider, so the two
calls together invoke the underlying providers at most once each. -/
theorem geocode_cache_hit_idempotent :
    (∀ (provs : List Provider) (cache : Cache) (address : Addr) (verbose : Bool)
        (lat lon : ℚ) (prov : String),
      cacheGet cache (pyStrip address) = some (lat, lon, prov) →
      (geocode provs true cache address verbose).result = .ok (lat, lon, prov) ∧
      (geocode provs true cache address verbose).invocations = []) ∧
    (∀ (provs : List Provider) (useCache : Bool) (cache : Cache) (address : Addr)
        (verbose : Bool), ∃ n,
      (geocode provs useCache cache address verbose).invocations
        = (provs.take n).map Provider.name) ∧
    (∀ (provs : List Provider) (cache : Cache) (address : Addr) (verbose : Bool)
        (lat lon : ℚ) (prov : String),
      (geocode provs true cache address verbose).result = .ok (lat, lon, prov) →
      (geocode provs true ((geocode provs true cache address verbose).cache)
          address verbose).result = .ok (lat, lon, prov) ∧
      (geocode provs true ((geocode provs true cache address verbose).cache)
          address verbose).invocations = []) := by
  refine ⟨?_, ?_, ?_⟩
  · intro provs cache address verbose lat lon prov h
    simp [geocode, h]
  · intro provs useCache cache address verbose
    cases hc : useCache with
    | false =>
        obtain ⟨n, hn⟩ := tryProviders_invocations_take address (pyStrip address)
          false verbose cache provs none
        exact ⟨n, by simpa [geocode] using hn⟩
    | true =>
        cases hg : cacheGet cache (pyStrip address) with
        | some v =>
            obtain ⟨lat, lon, prov⟩ := v
            exact ⟨0, by simp [geocode, hg]⟩
        | none =>
            obtain ⟨n, hn⟩ := tryProviders_invocations_take address (pyStrip address)
              true verbose cache provs none
            exact ⟨n, by simpa [geocode, hg] using hn⟩
  · intro provs cache address verbose lat lon prov h
    cases hg : cacheGet cache (pyStrip address) with
    | some v =>
        obtain ⟨lat', lon', prov'⟩ := v
        have hres : (geocode provs true cache address verbose).result
            = .ok (lat', lon', prov') := by simp [geocode, hg]
        have hcache : (geocode provs true cache address verbose).cache = cache := by
          simp [geocode, hg]
        rw [hres] at h
        have h' : (lat', lon', prov') = (lat, lon, prov) := by injection h
        rw [hcache]
        constructor
        · simp [geocode, hg, h']
        · simp [geocode, hg]
    | none =>
        have hres : (geocode provs true cache address verbose).result
            = (tryProviders address (pyStrip address) true verbose cache none provs).result := by
          simp [geocode, hg]
        have hcache : (geocode provs true cache address verbose).cache
            = (tryProviders address (pyStrip address) true verbose cache none provs).cache := by
          simp [geocode, hg]
        rw [hres] at h
        have hget := tryProviders_ok_cacheGet address (pyStrip address) verbose cache
          provs none lat lon prov h
        rw [hcache]
        constructor
        · simp [geocode, hget]
        · simp [geocode, hget]

/-- A provider that always succeeds with (51.0, -2.0), the spec's second
concrete caching scenario. -/
def dupProvider : Provider :=
  { name := "Success", behavior := fun _ => .ok (51, -2) }

/-- Witness for C2 on the spec's `"dup"` scenario: a pre-existing cache
row is returned without invoking the chain, a fresh call invokes a prefix
of the chain, and after one successful call a second call returns the
same `(51.0, -2.0, "Success")` with no provider invoked. -/
theorem geocode_cache_hit_idempotent_witness :
    ((geocode [dupProvider] true [(['d','u','p'], (51, -2, "Success"))]
        ['d','u','p'] false).result = .ok (51, -2, "Success") ∧
     (geocode [dupProvider] true [(['d','u','p'], (51, -2, "Success"))]
        ['d','u','p'] false).invocations = []) ∧
    (∃ n, (geocode [dupProvider] true [] ['d','u','p'] false).invocations
        = (([dupProvider].take n)).map Provider.name) ∧
    ((geocode [dupProvider] true
        ((geocode [dupProvider] true [] ['d','u','p'] false).cache)
        ['d','u','p'] false).result = .ok (51, -2, "Success") ∧
     (geocode [dupProvider] true
        ((geocode [dupProvider] true [] ['d','u','p'] false).cache)
        ['d','u','p'] false).invocations = []) :=
  ⟨geocode_cache_hit_idempotent.1 [dupProvider] [(['d','u','p'], (51, -2, "Success"))]
      ['d','u','p'] false 51 (-2) "Success" rfl,
   geocode_cache_hit_idempotent.2.1 [dupProvider] true [] ['d','u','p'] false,
   geocode_cache_hit_idempotent.2.2 [dupProvider] [] ['d','u','p'] false
      51 (-2) "Success" rfl⟩

/-- Dropping a predicate-satisfying block from the front of an append
skips the whole block. -/
theorem dropWhile_append_all (p : Char → Bool) :
    ∀ (w x : List Char), (∀ c ∈ w, p c = true) →
      (w ++ x).dropWhile p = x.dropWhile p := by
  intro w
  induction w with
  | nil => intro x _; rfl
  | cons c w ih =>
      intro x hw
      have hc : p c = true := hw c (List.mem_cons_self c w)
      simp only [List.cons_append, List.dropWhile_cons, hc, if_true]
      exact ih x fun d hd => hw d (List.mem_cons_of_mem c hd)

/-- If the front of `x` does not vanish under `dropWhile`, appending after
`x` keeps the whole suffix. -/
theorem dropWhile_append_of_ne_nil (p : Char → Bool) :
    ∀ (x y : List Char), x.dropWhile p ≠ [] →
      (x ++ y).dropWhile p = x.dropWhile p ++ y := by
  intro x
  induction x with
  | nil => intro y h; simp [List.dropWhile] at h
  | cons c x ih =>
      intro y h
      cases hc : p c with
      | true =>
          simp only [List.dropWhile_cons, hc, if_true] at h
          simp only [List.cons_append, List.dropWhile_cons, hc, if_true]
          exact ih y h
      | false =>
          simp [List.cons_append, List.dropWhile_cons, hc]

/-- Surrounding an address with extra whitespace does not change its
trimmed form, hence not its cache key. -/
theorem pyStrip_pad (a w w' : Addr)
    (hw : ∀ c ∈ w, pyIsSpace c = true) (hw' : ∀ c ∈ w', pyIsSpace c = true) :
    pyStrip (w ++ a ++ w') = pyStrip a := by
  unfold pyStrip
  rw [List.append_assoc, dropWhile_append_all pyIsSpace w (a ++ w') hw]
  by_cases hnil : a.dropWhile pyIsSpace = []
  · have ha : ∀ c ∈ a, pyIsSpace c = true := List.dropWhile_eq_nil_iff.mp hnil
    have : (a ++ w').dropWhile pyIsSpace = [] := by
      refine List.dropWhile_eq_nil_iff.mpr ?_
      intro c hc
      rcases List.mem_append.mp hc with hc | hc
      · exact ha c hc
      · exact hw' c hc
    rw [this, hnil]
  · rw [dropWhile_append_of_ne_nil pyIsSpace a w' hnil, List.reverse_append,
      dropWhile_append_all pyIsSpace w'.reverse (a.dropWhile pyIsSpace).reverse
        (fun c hc => hw' c (List.mem_reverse.mp hc))]

/-- The provider loop performs no cache reads, and each of its cache
writes is keyed by the manager's key. -/
theorem tryProviders_reads_writes (address key : Addr) (useCache verbose : Bool)
    (cache : Cache) :
    ∀ (provs : List Provider) (lastExc : Option String),
      (tryProviders address key useCache verbose cache lastExc provs).reads = [] ∧
      ∀ kv ∈ (tryProviders address key useCache verbose cache lastExc provs).writes,
        kv.1 = key := by
  intro provs
  induction provs with
  | nil => intro lastExc; simp [tryProviders]
  | cons p rest ih =>
      intro lastExc
      cases hb : p.behavior address with
      | ok v =>
          obtain ⟨lat, lon⟩ := v
          cases useCache with
          | false => simp [tryProviders, hb]
          | true => simp [tryProviders, hb]
      | error e =>
          simp only [tryProviders, hb]
          exact ih (some e)

/-- C7: the cache key is exactly the whitespace-trimmed address and
nothing else.  (i) Padding an address with whitespace leaves the key
unchanged.  (ii) No other normalization is applied: distinct already
trimmed addresses (e.g. differing only in case or punctuation) have
distinct keys.  (iii) and (iv): every cache read and every cache write of
a `geocode` run uses the key `pyStrip address`. -/
theorem geocode_cache_key_trim_only :
    (∀ (a w w' : Addr), (∀ c ∈ w, pyIsSpace c = true) →
        (∀ c ∈ w', pyIsSpace c = true) →
        pyStrip (w ++ a ++ w') = pyStrip a) ∧
    (∀ a b : Addr, pyStrip a = a → pyStrip b = b → a ≠ b →
        pyStrip a ≠ pyStrip b) ∧
    (∀ (provs : List Provider) (useCache : Bool) (cache : Cache) (address : Addr)
        (verbose : Bool),
      ∀ k ∈ (geocode provs useCache cache address verbose).reads, k = pyStrip address) ∧
    (∀ (provs : List Provider) (useCache : Bool) (cache : Cache) (address : Addr)
        (verbose : Bool),
      ∀ kv ∈ (geocode provs useCache cache address verbose).writes,
        kv.1 = pyStrip address) := by
  refine ⟨pyStrip_pad, ?_, ?_, ?_⟩
  · intro a b ha hb hne
    rw [ha, hb]; exact hne
  · intro provs useCache cache address verbose k hk
    cases hc : useCache with
    | false =>
        have := (tryProviders_reads_writes address (pyStrip address) false verbose
          cache provs none).1
        rw [hc] at hk
        simp only [geocode, this] at hk
        exact absurd hk (by simp [this])
    | true =>
        rw [hc] at hk
        cases hg : cacheGet cache (pyStrip address) with
        | some v =>
            obtain ⟨lat, lon, prov⟩ := v
            simp only [geocode, hg] at hk
            simpa using hk
        | none =>
            have := (tryProviders_reads_writes address (pyStrip address) true verbose
              cache provs none).1
            simp only [geocode, hg] at hk
            simp [this] at hk
            exact hk
  · intro provs useCache cache address verbose kv hkv
    cases hc : useCache with
    | false =>
        have := (tryProviders_reads_writes address (pyStrip address) false verbose
          cache provs none).2
        rw [hc] at hkv
        simp only [geocode] at hkv
        exact this kv hkv
    | true =>
        rw [hc] at hkv
        cases hg : cacheGet cache (pyStrip address) with
        | some v =>
            obtain ⟨lat, lon, prov⟩ := v
            simp [geocode, hg] at hkv
        | none =>
            have := (tryProviders_reads_writes address (pyStrip address) true verbose
              cache provs none).2
            simp only [geocode, hg] at hkv
            exact this kv hkv

/-- Witness for C7: `" a\t"` has the same key as `"a"`; `"a"` and `"A"`
(case difference only) have distinct keys; a concrete run reads and
writes only the trimmed key. -/
theorem geocode_cache_key_trim_only_witness :
    pyStrip ([' '] ++ ['a'] ++ ['\t']) = pyStrip ['a'] ∧
    pyStrip ['a'] ≠ pyStrip ['A'] ∧
    (∀ k ∈ (geocode [dupProvider] true [] [' ', 'a'] false).reads,
      k = pyStrip [' ', 'a']) ∧
    (∀ kv ∈ (geocode [dupProvider] true [] [' ', 'a'] false).writes,
      kv.1 = pyStrip [' ', 'a']) :=
  ⟨geocode_cache_key_trim_only.1 ['a'] [' '] ['\t'] (by decide) (by decide),
   geocode_cache_key_trim_only.2.1 ['a'] ['A'] (by decide) (by decide) (by decide),
   geocode_cache_key_trim_only.2.2.1 [dupProvider] true [] [' ', 'a'] false,
   geocode_cache_key_trim_only.2.2.2 [dupProvider] true [] [' ', 'a'] false⟩

/-!
Embedding of the synchronous provider adapters' retry loop
(`nominatim_geocoder.geocode`, `mapbox_geocoder.geocode`, and the
identically structured `here`, `locationiq` and `opencage` modules): a
`while True` loop in which each iteration increments `attempt` and issues
one HTTP request.  A network exception retries after
`time.sleep(0.5 * (2 ** (attempt - 1)))` unless `attempt >= max_retries`
(default 3); a rate-limit status retries after `time.sleep(1.0 * attempt)`
under the same cap; a 200 response returns the first parsed coordinate
pair or raises on an empty result; any other status raises immediately.
The upstream is modelled as the list of per-attempt responses, and each
run records the executed sleeps (attempt number, kind, delay) and the
number of requests issued.  (`google_geocoder` differs only in receiving
its rate-limit signal as a status string inside a 200 payload, with the
same two sleep formulas and cap.)
-/

/-- What one HTTP attempt yields: a network-level exception, a 200
response with its parsed list of coordinate results, or a non-200 status
code. -/
inductive UpstreamResponse where
  | transportErr (msg : String)
  | payload (entries : List (ℚ × ℚ))
  | httpStatus (code : Nat)
deriving DecidableEq

/-- The adapter's classified outcome: parsed coordinates, or the raised
error (`networkFailed` / `rateLimitFailed` after exhausting retries,
`emptyResult` for a 200 with zero matches, `httpError` for any other
status).  `outOfResponses` marks a modelled upstream trace shorter than
the run. -/
inductive AdapterOutcome where
  | ok (lat lon : ℚ)
  | networkFailed (msg : String)
  | rateLimitFailed (code : Nat)
  | emptyResult
  | httpError (code : Nat)
  | outOfResponses
deriving DecidableEq

/-- Which branch executed a `time.sleep`. -/
inductive SleepKind where
  | transport
  | rateLimit
deriving DecidableEq

/-- One executed `time.sleep`: the attempt number that triggered it, the
branch it occurred in, and the slept duration in seconds. -/
structure SleepEvent where
  attempt : Nat
  kind : SleepKind
  delay : ℚ
deriving DecidableEq

/-- The observables of one adapter call: its outcome, the sleeps it
executed in order, and how many HTTP requests it issued. -/
structure AdapterRun where
  outcome : AdapterOutcome
  sleeps : List SleepEvent
  requests : Nat
deriving DecidableEq

/-- The base delay of each retrying branch: `0.5` seconds for transport
errors, `1.0` second for rate-limit statuses. -/
def sleepBase : SleepKind → ℚ
  | .transport => 1/2
  | .rateLimit => 1

/-- The adapter retry loop, parameterized by which status codes the
adapter treats as rate limiting (`resp.status_code in (429, 503)` for
Nominatim, `== 429` for Mapbox and HERE, `in (429, 403)` for LocationIQ,
`in (402, 429)` for OpenCage) and by `max_retries`.  `attempt0` is the
value of `attempt` before the iteration; each iteration consumes the next
upstream response. -/
def adapterStep (isRL : Nat → Bool) (maxRetries : Nat) :
    Nat → List UpstreamResponse → AdapterRun
  | _, [] => ⟨.outOfResponses, [], 0⟩
  | attempt0, r :: rest =>
      let attempt := attempt0 + 1
      match r with
      | .transportErr msg =>
          if maxRetries ≤ attempt then ⟨.networkFailed msg, [], 1⟩
          else
            let k := adapterStep isRL maxRetries attempt rest
            ⟨k.outcome,
              ⟨attempt, .transport, (1/2 : ℚ) * 2 ^ (attempt - 1)⟩ :: k.sleeps,
              k.requests + 1⟩
      | .payload [] => ⟨.emptyResult, [], 1⟩
      | .payload ((lat, lon) :: _) => ⟨.ok lat lon, [], 1⟩
      | .httpStatus code =>
          if isRL code then
            if maxRetries ≤ attempt then ⟨.rateLimitFailed code, [], 1⟩
            else
              let k := adapterStep isRL maxRetries attempt rest
              ⟨k.outcome,
                ⟨attempt, .rateLimit, (attempt : ℚ)⟩ :: k.sleeps,
                k.requests + 1⟩
          else ⟨.httpError code, [], 1⟩

/-- Nominatim's rate-limit statuses: 429 and 503. -/
def nominatimRateStatus (c : Nat) : Bool := c = 429 || c = 503

/-- Mapbox's rate-limit status: 429. -/
def mapboxRateStatus (c : Nat) : Bool := c = 429

/-- Every executed sleep happens strictly between the starting attempt
counter and `max_retries`, with the source's literal delay: transport
sleeps `0.5 * 2^(attempt-1)`, rate-limit sleeps `1.0 * attempt`. -/
theorem adapterStep_sleep_mem (isRL : Nat → Bool) (maxR : Nat) :
    ∀ (rs : List UpstreamResponse) (a0 : Nat) (s : SleepEvent),
      s ∈ (adapterStep isRL maxR a0 rs).sleeps →
      a0 < s.attempt ∧ s.attempt < maxR ∧
      (s.kind = .transport → s.delay = (1/2 : ℚ) * 2 ^ (s.attempt - 1)) ∧
      (s.kind = .rateLimit → s.delay = (s.attempt : ℚ)) := by
  intro rs
  induction rs with
  | nil => intro a0 s hs; simp [adapterStep] at hs
  | cons r rest ih =>
      intro a0 s hs
      cases r with
      | transportErr msg =>
          by_cases hcap : maxR ≤ a0 + 1
          · simp [adapterStep, hcap] at hs
          · simp only [adapterStep, if_neg hcap, List.mem_cons] at hs
            rcases hs with hs | hs
            · subst hs
              refine ⟨Nat.lt_succ_self a0, by show a0 + 1 < maxR; omega,
                fun _ => rfl, fun hk => ?_⟩
              simp at hk
            · have := ih (a0 + 1) s hs
              exact ⟨by omega, this.2.1, this.2.2.1, this.2.2.2⟩
      | payload entries =>
          cases entries with
          | nil => simp [adapterStep] at hs
          | cons e more =>
              obtain ⟨lat, lon⟩ := e
              simp [adapterStep] at hs
      | httpStatus code =>
          by_cases hrl : isRL code
          · by_cases hcap : maxR ≤ a0 + 1
            · simp [adapterStep, hrl, hcap] at hs
            · simp only [adapterStep, if_pos hrl, if_neg hcap, List.mem_cons] at hs
              rcases hs with hs | hs
              · subst hs
                refine ⟨Nat.lt_succ_self a0, by show a0 + 1 < maxR; omega,
                  fun hk => ?_, fun _ => rfl⟩
                simp at hk
              · have := ih (a0 + 1) s hs
                exact ⟨by omega, this.2.1, this.2.2.1, this.2.2.2⟩
          · simp [adapterStep, hrl] at hs

/-- The loop issues at most `max_retries - attempt0` HTTP requests. -/
theorem adapterStep_requests_le (isRL : Nat → Bool) (maxR : Nat) :
    ∀ (rs : List UpstreamResponse) (a0 : Nat), a0 < maxR →
      (adapterStep isRL maxR a0 rs).requests ≤ maxR - a0 := by
  intro rs
  induction rs with
  | nil => intro a0 h; simp [adapterStep]
  | cons r rest ih =>
      intro a0 h
      cases r with
      | transportErr msg =>
          by_cases hcap : maxR ≤ a0 + 1
          · simp only [adapterStep, if_pos hcap]; omega
          · have := ih (a0 + 1) (by omega)
            simp only [adapterStep, if_neg hcap]; omega
      | payload entries =>
          cases entries with
          | nil => simp only [adapterStep]; omega
          | cons e more =>
              obtain ⟨lat, lon⟩ := e
              simp only [adapterStep]; omega
      | httpStatus code =>
          by_cases hrl : isRL code
          · by_cases hcap : maxR ≤ a0 + 1
            · simp only [adapterStep, if_pos hrl, if_pos hcap]; omega
            · have := ih (a0 + 1) (by omega)
              simp only [adapterStep, if_pos hrl, if_neg hcap]; omega
          · simp only [adapterStep, if_neg hrl]; omega

/-- C6: the adapter retry policy.  (i) In a run with the default
`max_retries = 3`, every executed sleep, in both the transport-error and
the rate-limit branch, has delay equal to the branch's base delay times
`2^(attempt-1)` and occurs on an attempt strictly below the cap of 3.
(ii) A run issues at most 3 HTTP requests.  (iii) Any other non-2xx
status raises immediately: exactly one request, no sleep, no retry. -/
theorem adapter_retry_policy :
    (∀ (isRL : Nat → Bool) (rs : List UpstreamResponse) (s : SleepEvent),
      s ∈ (adapterStep isRL 3 0 rs).sleeps →
      1 ≤ s.attempt ∧ s.attempt < 3 ∧
      s.delay = sleepBase s.kind * 2 ^ (s.attempt - 1)) ∧
    (∀ (isRL : Nat → Bool) (rs : List UpstreamResponse),
      (adapterStep isRL 3 0 rs).requests ≤ 3) ∧
    (∀ (isRL : Nat → Bool) (code : Nat) (rest : List UpstreamResponse),
      isRL code = false →
      adapterStep isRL 3 0 (.httpStatus code :: rest)
        = ⟨.httpError code, [], 1⟩) := by
  refine ⟨?_, ?_, ?_⟩
  · intro isRL rs s hs
    obtain ⟨h1, h2, ht, hr⟩ := adapterStep_sleep_mem isRL 3 rs 0 s hs
    refine ⟨h1, h2, ?_⟩
    cases hk : s.kind with
    | transport => rw [ht hk, sleepBase]
    | rateLimit =>
        rw [hr hk]
        have : s.attempt = 1 ∨ s.attempt = 2 := by omega
        rcases this with h | h <;> rw [h] <;> norm_num [sleepBase]
  · intro isRL rs
    simpa using adapterStep_requests_le isRL 3 rs 0 (by omega)
  · intro isRL code rest h
    simp [adapterStep, h]

/-- Witness for C6: three successive 429s from Nominatim execute the
sleeps `[1.0, 2.0]` (attempts 1 and 2), matching `base * 2^(attempt-1)`,
and a Mapbox 404 raises immediately with one request and no sleep. -/
theorem adapter_retry_policy_witness :
    (1 ≤ (⟨1, SleepKind.rateLimit, 1⟩ : SleepEvent).attempt ∧
     (⟨1, SleepKind.rateLimit, 1⟩ : SleepEvent).attempt < 3 ∧
     (⟨1, SleepKind.rateLimit, 1⟩ : SleepEvent).delay
       = sleepBase (⟨1, SleepKind.rateLimit, 1⟩ : SleepEvent).kind
           * 2 ^ ((⟨1, SleepKind.rateLimit, 1⟩ : SleepEvent).attempt - 1)) ∧
    adapterStep mapboxRateStatus 3 0 [.httpStatus 404]
      = ⟨.httpError 404, [], 1⟩ :=
  ⟨adapter_retry_policy.1 nominatimRateStatus
      [.httpStatus 429, .httpStatus 429, .httpStatus 429]
      ⟨1, SleepKind.rateLimit, 1⟩ (by decide),
   adapter_retry_policy.2.2 mapboxRateStatus 404 [] rfl⟩

/-- C8 counterexample: the adapters perform no coordinate range check.  A
200 response whose first result has latitude 100 (outside [-90, 90]) is
returned as a success carrying that latitude, not treated as a parse
failure. -/
theorem adapter_out_of_range_accepted :
    adapterStep mapboxRateStatus 3 0 [.payload [(100, 0)]]
      = ⟨.ok 100 0, [], 1⟩ ∧ ¬((100 : ℚ) ≤ 90) :=
  ⟨rfl, by norm_num⟩

/-- C8 amended: a successful adapter call returns exactly the coordinates
parsed from the upstream's first result, unchanged and with no range
validation; in particular out-of-range upstream coordinates are returned
as success. -/
theorem adapter_success_passthrough (isRL : Nat → Bool) (lat lon : ℚ)
    (more : List (ℚ × ℚ)) (rest : List UpstreamResponse) :
    adapterStep isRL 3 0 (.payload ((lat, lon) :: more) :: rest)
      = ⟨.ok lat lon, [], 1⟩ := by
  simp [adapterStep]

end AeroMapping
